import Mathlib

/-!
Verification development for the Synergia event-booking service.

The repository ships two implementation variants of the same HTTP surface:
an array-backed variant (namespace InMem below) whose state lives in the
process, and a MongoDB/Mongoose-backed variant (namespace Mongo below).
Each route handler is translated into a pure function from a store state
and a request to a result and a new store state.  Identifier parsing
(parseInt on route parameters, ObjectId strings) is reflected by taking
ids as Int resp. String arguments directly; wall-clock timestamps are
threaded in as explicit string arguments.  JavaScript truthiness checks
on request fields are reflected as comparison with the empty string for
text fields and with 0 for numeric fields, which is exactly the falsy
set for the values these handlers receive.
-/

/-- Error taxonomy of the service, one constructor per distinct failure
response produced by the handlers: validation is the 400 response for
missing required fields, notFound the 404 response, conflict the 400
response with message about an event not active for bookings, capacity
the 400 response with the fully-booked message, duplicate the 400
response with the already-registered message, and persistence the 500
response surfaced from a failed store operation. -/
inductive Err where
  | validation
  | notFound
  | conflict
  | capacity
  | duplicate
  | persistence
deriving DecidableEq

deriving instance DecidableEq for Except

/-- Replace the first element of the list whose key equals k by its image
under f, leaving every other element alone.  This reflects the JavaScript
pattern of looking an object up with find and then mutating the returned
object in place. -/
def updateFirstBy {α κ : Type} [BEq κ] (key : α → κ) : List α → κ → (α → α) → List α
  | [], _, _ => []
  | a :: rest, k, f =>
    if key a == k then f a :: rest else a :: updateFirstBy key rest k f

/-- Remove the first element of the list whose key equals k, leaving every
other element alone.  This reflects the JavaScript pattern of findIndex
followed by splice. -/
def removeFirstBy {α κ : Type} [BEq κ] (key : α → κ) : List α → κ → List α
  | [], _ => []
  | a :: rest, k =>
    if key a == k then rest else a :: removeFirstBy key rest k

theorem mem_updateFirstBy {α κ : Type} [BEq κ] (key : α → κ) (l : List α) (k : κ)
    (f : α → α) (a' : α) (h : a' ∈ updateFirstBy key l k f) :
    a' ∈ l ∨ ∃ a, l.find? (fun x => key x == k) = some a ∧ a' = f a := by
  induction l with
  | nil => simp [updateFirstBy] at h
  | cons b rest ih =>
    cases hb : (key b == k) with
    | true =>
      simp only [updateFirstBy, hb, if_true] at h
      rcases List.mem_cons.mp h with h1 | h2
      · exact Or.inr ⟨b, by simp [List.find?, hb], h1⟩
      · exact Or.inl (List.mem_cons_of_mem _ h2)
    | false =>
      simp only [updateFirstBy, hb, if_false] at h
      rcases List.mem_cons.mp h with h1 | h2
      · exact Or.inl (h1 ▸ List.mem_cons_self _ _)
      · rcases ih h2 with h3 | ⟨a, ha, rfl⟩
        · exact Or.inl (List.mem_cons_of_mem _ h3)
        · exact Or.inr ⟨a, by simp [List.find?, hb, ha], rfl⟩

theorem map_key_updateFirstBy {α κ : Type} [BEq κ] (key : α → κ) (l : List α) (k : κ)
    (f : α → α) (hf : ∀ a, key (f a) = key a) :
    (updateFirstBy key l k f).map key = l.map key := by
  induction l with
  | nil => rfl
  | cons b rest ih =>
    cases hb : (key b == k) with
    | true => simp [updateFirstBy, hb, hf]
    | false => simp [updateFirstBy, hb, ih]

theorem find?_updateFirstBy_key {α κ : Type} [BEq κ] (key : α → κ) (l : List α) (k : κ)
    (f : α → α) (hf : ∀ a, key (f a) = key a) (a : α)
    (h : l.find? (fun x => key x == k) = some a) :
    (updateFirstBy key l k f).find? (fun x => key x == k) = some (f a) := by
  induction l with
  | nil => simp at h
  | cons b rest ih =>
    cases hb : (key b == k) with
    | true =>
      simp only [List.find?, hb] at h
      cases h
      simp [updateFirstBy, hb, List.find?, hf]
    | false =>
      simp only [List.find?, hb] at h
      simp only [updateFirstBy, hb, if_false]
      simp only [List.find?, hb]
      exact ih h

theorem mem_of_mem_removeFirstBy {α κ : Type} [BEq κ] (key : α → κ) (l : List α) (k : κ)
    (a : α) (h : a ∈ removeFirstBy key l k) : a ∈ l := by
  induction l with
  | nil => simp [removeFirstBy] at h
  | cons b rest ih =>
    cases hb : (key b == k) with
    | true =>
      simp only [removeFirstBy, hb, if_true] at h
      exact List.mem_cons_of_mem _ h
    | false =>
      simp only [removeFirstBy, hb, if_false] at h
      rcases List.mem_cons.mp h with h1 | h2
      · exact h1 ▸ List.mem_cons_self _ _
      · exact List.mem_cons_of_mem _ (ih h2)

theorem mem_removeFirstBy_of_key_ne {α κ : Type} [BEq κ] (key : α → κ) (l : List α) (k : κ)
    (a : α) (ha : a ∈ l) (hne : (key a == k) = false) : a ∈ removeFirstBy key l k := by
  induction l with
  | nil => simp at ha
  | cons b rest ih =>
    rcases List.mem_cons.mp ha with h1 | h2
    · subst h1
      simp only [removeFirstBy, hne, if_false]
      simp
    · cases hb : (key b == k) with
      | true => simpa only [removeFirstBy, hb, if_true] using h2
      | false =>
        simp only [removeFirstBy, hb, if_false]
        exact List.mem_cons_of_mem _ (ih h2)

namespace InMem

/-- Event record of the array-backed variant.  The source literals carry
no status field: an event in this variant is removed outright when it is
cancelled.  The createdAt and updatedAt timestamps are optional because
the two seed events carry neither. -/
structure Event where
  id : Int
  name : String
  description : String
  date : String
  time : String
  venue : String
  maxParticipants : Int
  currentParticipants : Int
  category : String
  createdAt : Option String
  updatedAt : Option String
deriving DecidableEq

/-- Booking record of the array-backed variant. -/
structure Booking where
  id : Int
  eventId : Int
  participantName : String
  email : String
  phone : String
  college : String
  department : String
  year : String
  registrationDate : String
  status : String
  updatedAt : Option String
deriving DecidableEq

/-- Whole mutable state of the array-backed variant: the two arrays and
the two id counters. -/
structure State where
  events : List Event
  bookings : List Booking
  nextEventId : Int
  nextBookingId : Int
deriving DecidableEq

/-- Request body of POST /events/add and of PUT /event/:id.  An empty
string stands for an absent or empty (falsy) text field and 0 for an
absent or zero (falsy) maxParticipants. -/
structure EventReq where
  name : String
  description : String
  date : String
  time : String
  venue : String
  maxParticipants : Int
  category : String
deriving DecidableEq

/-- Request body of POST /api/bookings; 0 stands for an absent (falsy)
eventId and the empty string for an absent text field. -/
structure BookingReq where
  eventId : Int
  participantName : String
  email : String
  phone : String
  college : String
  department : String
  year : String
deriving DecidableEq

/-- Request body of PUT /api/bookings/:id; the route never touches the
eventId or the status of a booking. -/
structure BookingPatch where
  participantName : String
  email : String
  phone : String
  college : String
  department : String
  year : String
deriving DecidableEq

/-- Utility findEventById of the source: first event whose id matches. -/
def findEventById (s : State) (id : Int) : Option Event :=
  s.events.find? (fun e => e.id == id)

/-- Utility findBookingById of the source: first booking whose id matches. -/
def findBookingById (s : State) (id : Int) : Option Booking :=
  s.bookings.find? (fun b => b.id == id)

/-- Handler POST /events/add: reject if any required field is falsy, else
append a fresh event with currentParticipants 0 and bump the id counter. -/
def createEvent (s : State) (now : String) (r : EventReq) : Except Err Event × State :=
  if r.name = "" ∨ r.description = "" ∨ r.date = "" ∨ r.time = "" ∨
      r.venue = "" ∨ r.maxParticipants = 0 ∨ r.category = "" then
    (Except.error Err.validation, s)
  else
    let newEvent : Event :=
      { id := s.nextEventId, name := r.name, description := r.description,
        date := r.date, time := r.time, venue := r.venue,
        maxParticipants := r.maxParticipants, currentParticipants := 0,
        category := r.category, createdAt := some now, updatedAt := none }
    (Except.ok newEvent,
      { s with events := s.events ++ [newEvent], nextEventId := s.nextEventId + 1 })

/-- Field-by-field overwrite performed by PUT /event/:id: a falsy patch
field leaves the stored field alone; updatedAt is always stamped. -/
def applyEventPatch (r : EventReq) (now : String) (e : Event) : Event :=
  let e1 := if r.name = "" then e else { e with name := r.name }
  let e2 := if r.description = "" then e1 else { e1 with description := r.description }
  let e3 := if r.date = "" then e2 else { e2 with date := r.date }
  let e4 := if r.time = "" then e3 else { e3 with time := r.time }
  let e5 := if r.venue = "" then e4 else { e4 with venue := r.venue }
  let e6 := if r.maxParticipants = 0 then e5 else { e5 with maxParticipants := r.maxParticipants }
  let e7 := if r.category = "" then e6 else { e6 with category := r.category }
  { e7 with updatedAt := some now }

/-- Handler PUT /event/:id. -/
def updateEvent (s : State) (now : String) (id : Int) (r : EventReq) :
    Except Err Event × State :=
  match findEventById s id with
  | none => (Except.error Err.notFound, s)
  | some e =>
    (Except.ok (applyEventPatch r now e),
      { s with events := updateFirstBy Event.id s.events id (applyEventPatch r now) })

/-- Handler DELETE /event/:id: a hard delete that first drops every
booking of the event and then splices the event itself out. -/
def deleteEvent (s : State) (id : Int) : Except Err Event × State :=
  match findEventById s id with
  | none => (Except.error Err.notFound, s)
  | some e =>
    (Except.ok e,
      { s with bookings := s.bookings.filter (fun b => b.eventId != id),
               events := removeFirstBy Event.id s.events id })

/-- Read-only projection of an event attached to a listed booking. -/
structure EventProj where
  name : String
  date : String
  time : String
  venue : String
deriving DecidableEq

/-- Projection constructor used by GET /api/bookings. -/
def projOfEvent (e : Event) : EventProj :=
  { name := e.name, date := e.date, time := e.time, venue := e.venue }

/-- Handler GET /api/bookings: every stored booking, each paired with the
projection of its event when that event is found, and with none in place
of the null the source would attach otherwise. -/
def listBookings (s : State) : List (Booking × Option EventProj) :=
  s.bookings.map (fun b => (b, (findEventById s b.eventId).map projOfEvent))

/-- Handler POST /api/bookings of the array-backed variant.  Checks, in
source order: required fields, event existence, capacity, and duplicate
email for the event (the scan ranges over every stored booking); then it
appends the booking with status confirmed and increments the counter of
the event object the lookup returned.  This variant has no event status
check. -/
def createBooking (s : State) (now : String) (r : BookingReq) :
    Except Err Booking × State :=
  if r.eventId = 0 ∨ r.participantName = "" ∨ r.email = "" ∨ r.phone = "" then
    (Except.error Err.validation, s)
  else
    match findEventById s r.eventId with
    | none => (Except.error Err.notFound, s)
    | some event =>
      if event.currentParticipants ≥ event.maxParticipants then
        (Except.error Err.capacity, s)
      else if s.bookings.any (fun b => b.eventId == r.eventId && b.email == r.email) then
        (Except.error Err.duplicate, s)
      else
        let newBooking : Booking :=
          { id := s.nextBookingId, eventId := r.eventId,
            participantName := r.participantName, email := r.email, phone := r.phone,
            college := if r.college = "" then "Not specified" else r.college,
            department := if r.department = "" then "Not specified" else r.department,
            year := if r.year = "" then "Not specified" else r.year,
            registrationDate := now, status := "confirmed", updatedAt := none }
        (Except.ok newBooking,
          { s with bookings := s.bookings ++ [newBooking],
                   events := updateFirstBy Event.id s.events r.eventId
                     (fun e => { e with currentParticipants := e.currentParticipants + 1 }),
                   nextBookingId := s.nextBookingId + 1 })

/-- Field-by-field overwrite performed by PUT /api/bookings/:id; note the
email field is overwritten with no duplicate re-check anywhere. -/
def applyBookingPatch (r : BookingPatch) (now : String) (b : Booking) : Booking :=
  let b1 := if r.participantName = "" then b else { b with participantName := r.participantName }
  let b2 := if r.email = "" then b1 else { b1 with email := r.email }
  let b3 := if r.phone = "" then b2 else { b2 with phone := r.phone }
  let b4 := if r.college = "" then b3 else { b3 with college := r.college }
  let b5 := if r.department = "" then b4 else { b4 with department := r.department }
  let b6 := if r.year = "" then b5 else { b5 with year := r.year }
  { b6 with updatedAt := some now }

/-- Handler PUT /api/bookings/:id. -/
def updateBooking (s : State) (now : String) (id : Int) (r : BookingPatch) :
    Except Err Booking × State :=
  match findBookingById s id with
  | none => (Except.error Err.notFound, s)
  | some b =>
    (Except.ok (applyBookingPatch r now b),
      { s with bookings := updateFirstBy Booking.id s.bookings id (applyBookingPatch r now) })

/-- Handler DELETE /api/bookings/:id: splices the booking out of the
array, then decrements the counter of the owning event when that event
exists and its counter is positive. -/
def cancelBooking (s : State) (id : Int) : Except Err Booking × State :=
  match findBookingById s id with
  | none => (Except.error Err.notFound, s)
  | some deleted =>
    let events2 :=
      match findEventById s deleted.eventId with
      | none => s.events
      | some ev =>
        if ev.currentParticipants > 0 then
          updateFirstBy Event.id s.events deleted.eventId
            (fun e => { e with currentParticipants := e.currentParticipants - 1 })
        else s.events
    (Except.ok deleted,
      { s with bookings := removeFirstBy Booking.id s.bookings id, events := events2 })

/-- One ledger operation of the array-backed variant, carrying its
request payload and, where the handler stamps a time, the timestamp. -/
inductive Op where
  | createEvent (now : String) (r : EventReq)
  | updateEvent (now : String) (id : Int) (r : EventReq)
  | deleteEvent (id : Int)
  | createBooking (now : String) (r : BookingReq)
  | updateBooking (now : String) (id : Int) (r : BookingPatch)
  | cancelBooking (id : Int)
deriving DecidableEq

/-- State transition of a single operation, discarding the response. -/
def applyOp (s : State) (op : Op) : State :=
  match op with
  | Op.createEvent now r => (createEvent s now r).2
  | Op.updateEvent now id r => (updateEvent s now id r).2
  | Op.deleteEvent id => (deleteEvent s id).2
  | Op.createBooking now r => (createBooking s now r).2
  | Op.updateBooking now id r => (updateBooking s now id r).2
  | Op.cancelBooking id => (cancelBooking s id).2

/-- Run a sequence of operations from a starting state. -/
def run (s : State) (ops : List Op) : State := ops.foldl applyOp s

/-- True exactly for the two booking-ledger operations named by the
capacity-invariant property. -/
def Op.isBookingLedgerOp : Op → Bool
  | Op.createBooking _ _ => true
  | Op.cancelBooking _ => true
  | _ => false

/-- True exactly for the booking-update operation. -/
def Op.isUpdateBooking : Op → Bool
  | Op.updateBooking _ _ _ => true
  | _ => false

/-- Capacity invariant of the specification, read on a whole state. -/
def capacityInv (s : State) : Prop :=
  ∀ e ∈ s.events, 0 ≤ e.currentParticipants ∧ e.currentParticipants ≤ e.maxParticipants

/-- Duplicate-registration invariant of the specification: two distinct
stored bookings for the same event and the same email are never both
confirmed. -/
def noDupConfirmed (s : State) : Prop :=
  ∀ b1 ∈ s.bookings, ∀ b2 ∈ s.bookings, b1 ≠ b2 → b1.eventId = b2.eventId →
    b1.email = b2.email → ¬ (b1.status = "confirmed" ∧ b2.status = "confirmed")

/-- Referential integrity: every stored booking points at some stored
event. -/
def refIntegrity (s : State) : Prop :=
  ∀ b ∈ s.bookings, ∃ e ∈ s.events, e.id = b.eventId

/-- Presence of the four request fields POST /api/bookings requires. -/
def bookingReqPresent (r : BookingReq) : Prop :=
  r.eventId ≠ 0 ∧ r.participantName ≠ "" ∧ r.email ≠ "" ∧ r.phone ≠ ""

/-- Presence of the seven request fields POST /events/add requires. -/
def eventReqPresent (r : EventReq) : Prop :=
  r.name ≠ "" ∧ r.description ≠ "" ∧ r.date ≠ "" ∧ r.time ≠ "" ∧
    r.venue ≠ "" ∧ r.maxParticipants ≠ 0 ∧ r.category ≠ ""

/-- First seed event of the array-backed variant, copied from the source
literal. -/
def seedEventOne : Event :=
  { id := 1, name := "Code Hackathon",
    description := "24-hour competitive programming challenge",
    date := "2024-02-15", time := "10:00 AM", venue := "Tech Auditorium",
    maxParticipants := 50, currentParticipants := 25,
    category := "Technical", createdAt := none, updatedAt := none }

/-- Second seed event of the array-backed variant. -/
def seedEventTwo : Event :=
  { id := 2, name := "AI Workshop",
    description := "Hands-on machine learning workshop",
    date := "2024-02-20", time := "2:00 PM", venue := "Computer Lab 3",
    maxParticipants := 30, currentParticipants := 15,
    category := "Workshop", createdAt := none, updatedAt := none }

/-- First seed booking of the array-backed variant. -/
def seedBookingOne : Booking :=
  { id := 1, eventId := 1, participantName := "John Doe",
    email := "john.doe@example.com", phone := "+1234567890",
    college := "Tech University", department := "Computer Science",
    year := "3rd Year", registrationDate := "2024-01-15T10:30:00Z",
    status := "confirmed", updatedAt := none }

/-- Second seed booking of the array-backed variant. -/
def seedBookingTwo : Booking :=
  { id := 2, eventId := 2, participantName := "Jane Smith",
    email := "jane.smith@example.com", phone := "+0987654321",
    college := "Engineering College", department := "AI & ML",
    year := "4th Year", registrationDate := "2024-01-16T14:20:00Z",
    status := "confirmed", updatedAt := none }

/-- Seed state of the array-backed variant, copied from the source
literals. -/
def seedState : State :=
  { events := [seedEventOne, seedEventTwo],
    bookings := [seedBookingOne, seedBookingTwo],
    nextEventId := 3,
    nextBookingId := 3 }

end InMem

/-- Lowercasing performed by the email field of the Booking schema
(option lowercase true), written as a map over the character list of
the string. -/
def lowerString (s : String) : String :=
  String.mk (s.data.map Char.toLower)

namespace Mongo

/-- The fixed category enumeration of the Event schema. -/
def categories : List String :=
  ["Technical", "Workshop", "Seminar", "Competition", "Social"]

/-- Event document of the Mongoose-backed variant, per the Event schema:
currentParticipants defaults to 0 and status to active. -/
structure Event where
  id : String
  name : String
  description : String
  date : String
  time : String
  venue : String
  maxParticipants : Int
  currentParticipants : Int
  category : String
  status : String
deriving DecidableEq

/-- Booking document of the Mongoose-backed variant, per the Booking
schema: the email is stored lowercased and status defaults to
confirmed. -/
structure Booking where
  id : String
  eventId : String
  participantName : String
  email : String
  phone : String
  college : String
  department : String
  year : String
  status : String
  createdAt : String
deriving DecidableEq

/-- Database state of the Mongoose-backed variant: the event and booking
collections. -/
structure State where
  events : List Event
  bookings : List Booking
deriving DecidableEq

/-- Request body of POST /events/add; empty string and 0 stand for the
falsy values the validation rejects. -/
structure EventReq where
  name : String
  description : String
  date : String
  time : String
  venue : String
  maxParticipants : Int
  category : String
deriving DecidableEq

/-- Request body of POST /api/bookings; the eventId is an object id
string. -/
structure BookingReq where
  eventId : String
  participantName : String
  email : String
  phone : String
  college : String
  department : String
  year : String
deriving DecidableEq

/-- Lookup by document id (findById): first document whose id matches. -/
def findEventById (s : State) (id : String) : Option Event :=
  s.events.find? (fun e => e.id == id)

/-- Handler POST /events/add: reject falsy fields with a 400, then save;
the save runs the schema validators (maxParticipants at least 1,
category in the enumeration) whose failure surfaces as a 500, and on
success inserts the document with the schema defaults
currentParticipants 0 and status active. -/
def createEvent (s : State) (newId : String) (r : EventReq) :
    Except Err Event × State :=
  if r.name = "" ∨ r.description = "" ∨ r.date = "" ∨ r.time = "" ∨
      r.venue = "" ∨ r.maxParticipants = 0 ∨ r.category = "" then
    (Except.error Err.validation, s)
  else if r.maxParticipants < 1 ∨ r.category ∉ categories then
    (Except.error Err.persistence, s)
  else
    let newEvent : Event :=
      { id := newId, name := r.name, description := r.description,
        date := r.date, time := r.time, venue := r.venue,
        maxParticipants := r.maxParticipants, currentParticipants := 0,
        category := r.category, status := "active" }
    (Except.ok newEvent, { s with events := s.events ++ [newEvent] })

/-- Handler GET /events: the active events only, via a status filter. -/
def listActiveEvents (s : State) : List Event :=
  s.events.filter (fun e => e.status == "active")

/-- Handler DELETE /event/:id: findByIdAndUpdate setting the status to
cancelled; a miss is a 404, and booking documents are never touched. -/
def cancelEvent (s : State) (id : String) : Except Err Event × State :=
  match findEventById s id with
  | none => (Except.error Err.notFound, s)
  | some ev =>
    (Except.ok { ev with status := "cancelled" },
      { s with events := updateFirstBy Event.id s.events id
                 (fun e => { e with status := "cancelled" }) })

/-- Handler POST /api/bookings of the Mongoose-backed variant.  Checks,
in source order: required fields, event existence, event status active,
capacity; then the booking save, where the unique compound index on
eventId and email rejects any state already holding a booking with the
same pair, whatever the status of that booking, surfacing as the
duplicate 400; on success the handler increments the counter of the
event document it read and saves that document back. -/
def createBooking (s : State) (newId : String) (now : String) (r : BookingReq) :
    Except Err Booking × State :=
  if r.eventId = "" ∨ r.participantName = "" ∨ r.email = "" ∨ r.phone = "" then
    (Except.error Err.validation, s)
  else
    match findEventById s r.eventId with
    | none => (Except.error Err.notFound, s)
    | some event =>
      if event.status ≠ "active" then
        (Except.error Err.conflict, s)
      else if event.currentParticipants ≥ event.maxParticipants then
        (Except.error Err.capacity, s)
      else if s.bookings.any (fun b => b.eventId == r.eventId && b.email == (lowerString r.email)) then
        (Except.error Err.duplicate, s)
      else
        let newBooking : Booking :=
          { id := newId, eventId := r.eventId,
            participantName := r.participantName, email := (lowerString r.email),
            phone := r.phone,
            college := if r.college = "" then "Not specified" else r.college,
            department := if r.department = "" then "Not specified" else r.department,
            year := if r.year = "" then "Not specified" else r.year,
            status := "confirmed", createdAt := now }
        (Except.ok newBooking,
          { s with bookings := s.bookings ++ [newBooking],
                   events := updateFirstBy Event.id s.events r.eventId
                     (fun _ => { event with
                        currentParticipants := event.currentParticipants + 1 }) })

/-- Instance method cancel of the Booking schema: set the status of the
booking to cancelled and save it; nothing touches the counter of the
owning event.  No route of the Mongoose-backed server calls it. -/
def cancelBooking (s : State) (id : String) : Option Booking × State :=
  match s.bookings.find? (fun b => b.id == id) with
  | none => (none, s)
  | some b =>
    (some { b with status := "cancelled" },
      { s with bookings := updateFirstBy Booking.id s.bookings id
                 (fun x => { x with status := "cancelled" }) })

/-- Presence of the four request fields POST /api/bookings requires. -/
def bookingReqPresent (r : BookingReq) : Prop :=
  r.eventId ≠ "" ∧ r.participantName ≠ "" ∧ r.email ≠ "" ∧ r.phone ≠ ""

/-- Presence of the seven request fields POST /events/add requires. -/
def eventReqPresent (r : EventReq) : Prop :=
  r.name ≠ "" ∧ r.description ≠ "" ∧ r.date ≠ "" ∧ r.time ≠ "" ∧
    r.venue ≠ "" ∧ r.maxParticipants ≠ 0 ∧ r.category ≠ ""

/-- A stored booking with the given event and (lowercased) email pair. -/
def hasBookingPair (s : State) (eventId : String) (email : String) : Prop :=
  ∃ b ∈ s.bookings, b.eventId = eventId ∧ b.email = email

end Mongo

set_option maxHeartbeats 1000000 in
theorem applyEventPatch_id (r : InMem.EventReq) (now : String) (e : InMem.Event) :
    (InMem.applyEventPatch r now e).id = e.id := by
  simp only [InMem.applyEventPatch]
  split_ifs <;> rfl

set_option maxHeartbeats 1000000 in
theorem applyBookingPatch_eventId (r : InMem.BookingPatch) (now : String) (b : InMem.Booking) :
    (InMem.applyBookingPatch r now b).eventId = b.eventId := by
  simp only [InMem.applyBookingPatch]
  split_ifs <;> rfl

theorem inMem_capacityInv_createBooking (s : InMem.State) (now : String)
    (r : InMem.BookingReq) (h : InMem.capacityInv s) :
    InMem.capacityInv (InMem.createBooking s now r).2 := by
  unfold InMem.createBooking
  split
  · exact h
  · cases hfind : InMem.findEventById s r.eventId with
    | none => simp only [hfind]; exact h
    | some event =>
      simp only [hfind]
      split
      · exact h
      · split
        · exact h
        · rename_i hcap _
          intro e' he'
          rcases mem_updateFirstBy InMem.Event.id s.events r.eventId _ e' he' with
            hmem | ⟨a, ha, rfl⟩
          · exact h e' hmem
          · have haev : a = event := by
              unfold InMem.findEventById at hfind
              exact Option.some.inj (ha.symm.trans hfind)
            subst haev
            have hmema : a ∈ s.events := List.mem_of_find?_eq_some ha
            obtain ⟨h1, h2⟩ := h a hmema
            have hlt : a.currentParticipants < a.maxParticipants := lt_of_not_le hcap
            constructor
            · show (0 : Int) ≤ a.currentParticipants + 1
              omega
            · show a.currentParticipants + 1 ≤ a.maxParticipants
              omega

theorem inMem_capacityInv_cancelBooking (s : InMem.State) (id : Int)
    (h : InMem.capacityInv s) :
    InMem.capacityInv (InMem.cancelBooking s id).2 := by
  unfold InMem.cancelBooking
  cases hb : InMem.findBookingById s id with
  | none => simp only [hb]; exact h
  | some deleted =>
    simp only [hb]
    cases hfind : InMem.findEventById s deleted.eventId with
    | none => simp only [hfind]; exact h
    | some ev =>
      simp only [hfind]
      split
      · rename_i hpos
        intro e' he'
        rcases mem_updateFirstBy InMem.Event.id s.events deleted.eventId _ e' he' with
          hmem | ⟨a, ha, rfl⟩
        · exact h e' hmem
        · have haev : a = ev := by
            unfold InMem.findEventById at hfind
            exact Option.some.inj (ha.symm.trans hfind)
          subst haev
          have hmema : a ∈ s.events := List.mem_of_find?_eq_some ha
          obtain ⟨h1, h2⟩ := h a hmema
          constructor
          · show (0 : Int) ≤ a.currentParticipants - 1
            omega
          · show a.currentParticipants - 1 ≤ a.maxParticipants
            omega
      · exact h

/-- Claim C1: starting from any state in which every event satisfies
0 <= currentParticipants <= maxParticipants, every sequence of
createBooking and cancelBooking operations of the ledger preserves that
invariant for every event. -/
theorem inMem_capacity_invariant (s : InMem.State) (ops : List InMem.Op)
    (hops : ∀ op ∈ ops, op.isBookingLedgerOp = true) (h : InMem.capacityInv s) :
    InMem.capacityInv (InMem.run s ops) := by
  induction ops generalizing s with
  | nil => exact h
  | cons op rest ih =>
    have hop := hops op (List.mem_cons_self _ _)
    have hrest : ∀ o ∈ rest, o.isBookingLedgerOp = true :=
      fun o ho => hops o (List.mem_cons_of_mem _ ho)
    have hstep : InMem.capacityInv (InMem.applyOp s op) := by
      cases op with
      | createBooking now r => exact inMem_capacityInv_createBooking s now r h
      | cancelBooking id => exact inMem_capacityInv_cancelBooking s id h
      | createEvent now r => simp [InMem.Op.isBookingLedgerOp] at hop
      | updateEvent now id r => simp [InMem.Op.isBookingLedgerOp] at hop
      | deleteEvent id => simp [InMem.Op.isBookingLedgerOp] at hop
      | updateBooking now id r => simp [InMem.Op.isBookingLedgerOp] at hop
    exact ih (InMem.applyOp s op) hrest hstep

theorem exists_key_of_map_key_eq {α κ : Type} (key : α → κ) {l l' : List α}
    (hmap : l'.map key = l.map key) (x : κ) (h : ∃ a ∈ l, key a = x) :
    ∃ a ∈ l', key a = x := by
  obtain ⟨a, ha, hk⟩ := h
  have hx : x ∈ l'.map key := by
    rw [hmap]
    exact List.mem_map.mpr ⟨a, ha, hk⟩
  obtain ⟨a', ha', hk'⟩ := List.mem_map.mp hx
  exact ⟨a', ha', hk'⟩

theorem inMem_refIntegrity_createEvent (s : InMem.State) (now : String)
    (r : InMem.EventReq) (h : InMem.refIntegrity s) :
    InMem.refIntegrity (InMem.createEvent s now r).2 := by
  unfold InMem.refIntegrity at h ⊢
  unfold InMem.createEvent
  split
  · exact h
  · intro b hbmem
    obtain ⟨e, he, hid⟩ := h b hbmem
    exact ⟨e, List.mem_append_left _ he, hid⟩

theorem inMem_refIntegrity_updateEvent (s : InMem.State) (now : String) (id : Int)
    (r : InMem.EventReq) (h : InMem.refIntegrity s) :
    InMem.refIntegrity (InMem.updateEvent s now id r).2 := by
  unfold InMem.refIntegrity at h ⊢
  unfold InMem.updateEvent
  cases hfind : InMem.findEventById s id with
  | none => simp only [hfind]; exact h
  | some e =>
    simp only [hfind]
    intro b hbmem
    have hmap := map_key_updateFirstBy InMem.Event.id s.events id
      (InMem.applyEventPatch r now) (fun a => applyEventPatch_id r now a)
    exact exists_key_of_map_key_eq InMem.Event.id hmap b.eventId (h b hbmem)

theorem inMem_refIntegrity_deleteEvent (s : InMem.State) (id : Int)
    (h : InMem.refIntegrity s) :
    InMem.refIntegrity (InMem.deleteEvent s id).2 := by
  unfold InMem.refIntegrity at h ⊢
  unfold InMem.deleteEvent
  cases hfind : InMem.findEventById s id with
  | none => simp only [hfind]; exact h
  | some e =>
    simp only [hfind]
    intro b hbmem
    have hmem : b ∈ s.bookings := (List.mem_filter.mp hbmem).1
    have hne : (b.eventId != id) = true := (List.mem_filter.mp hbmem).2
    obtain ⟨e0, he0, hid0⟩ := h b hmem
    refine ⟨e0, ?_, hid0⟩
    apply mem_removeFirstBy_of_key_ne InMem.Event.id s.events id e0 he0
    have hbne : ¬ (b.eventId = id) := by simpa using hne
    have : InMem.Event.id e0 = b.eventId := hid0
    rw [this]
    exact beq_eq_false_iff_ne.mpr hbne

theorem inMem_refIntegrity_createBooking (s : InMem.State) (now : String)
    (r : InMem.BookingReq) (h : InMem.refIntegrity s) :
    InMem.refIntegrity (InMem.createBooking s now r).2 := by
  unfold InMem.refIntegrity at h ⊢
  unfold InMem.createBooking
  split
  · exact h
  · cases hfind : InMem.findEventById s r.eventId with
    | none => simp only [hfind]; exact h
    | some event =>
      simp only [hfind]
      split
      · exact h
      · split
        · exact h
        · intro b hbmem
          have hmap := map_key_updateFirstBy InMem.Event.id s.events r.eventId
            (fun e => { e with currentParticipants := e.currentParticipants + 1 })
            (fun a => rfl)
          rcases List.mem_append.mp hbmem with hold | hnew
          · exact exists_key_of_map_key_eq InMem.Event.id hmap b.eventId (h b hold)
          · have hbeq : b.eventId = r.eventId := by
              rw [List.mem_singleton.mp hnew]
            apply exists_key_of_map_key_eq InMem.Event.id hmap
            unfold InMem.findEventById at hfind
            have hev : event ∈ s.events := List.mem_of_find?_eq_some hfind
            have hevid := List.find?_some hfind
            exact ⟨event, hev, by rw [hbeq]; exact eq_of_beq hevid⟩

theorem inMem_refIntegrity_updateBooking (s : InMem.State) (now : String) (id : Int)
    (r : InMem.BookingPatch) (h : InMem.refIntegrity s) :
    InMem.refIntegrity (InMem.updateBooking s now id r).2 := by
  unfold InMem.refIntegrity at h ⊢
  unfold InMem.updateBooking
  cases hb : InMem.findBookingById s id with
  | none => simp only [hb]; exact h
  | some b0 =>
    simp only [hb]
    intro b hbmem
    rcases mem_updateFirstBy InMem.Booking.id s.bookings id _ b hbmem with
      hold | ⟨a, ha, rfl⟩
    · exact h b hold
    · have hmema : a ∈ s.bookings := List.mem_of_find?_eq_some ha
      obtain ⟨e0, he0, hid0⟩ := h a hmema
      refine ⟨e0, he0, ?_⟩
      rw [applyBookingPatch_eventId]
      exact hid0

theorem inMem_refIntegrity_cancelBooking (s : InMem.State) (id : Int)
    (h : InMem.refIntegrity s) :
    InMem.refIntegrity (InMem.cancelBooking s id).2 := by
  unfold InMem.refIntegrity at h ⊢
  unfold InMem.cancelBooking
  cases hb : InMem.findBookingById s id with
  | none => simp only [hb]; exact h
  | some deleted =>
    simp only [hb]
    intro b hbmem
    have hmem : b ∈ s.bookings := mem_of_mem_removeFirstBy _ _ _ _ hbmem
    obtain ⟨e0, he0, hid0⟩ := h b hmem
    cases hfind : InMem.findEventById s deleted.eventId with
    | none => simp only [hfind]; exact ⟨e0, he0, hid0⟩
    | some ev =>
      simp only [hfind]
      split
      · exact exists_key_of_map_key_eq InMem.Event.id
          (map_key_updateFirstBy InMem.Event.id s.events deleted.eventId
            (fun e => { e with currentParticipants := e.currentParticipants - 1 })
            (fun a => rfl)) b.eventId ⟨e0, he0, hid0⟩
      · exact ⟨e0, he0, hid0⟩

theorem inMem_listBookings_proj_isSome (s : InMem.State) (h : InMem.refIntegrity s) :
    ∀ p ∈ InMem.listBookings s, p.2.isSome := by
  intro p hp
  unfold InMem.listBookings at hp
  obtain ⟨b, hbmem, rfl⟩ := List.mem_map.mp hp
  obtain ⟨e, he, hid⟩ := h b hbmem
  have hsome : (InMem.findEventById s b.eventId).isSome := by
    unfold InMem.findEventById
    rw [List.find?_isSome]
    exact ⟨e, he, by simp [hid]⟩
  obtain ⟨e0, he0⟩ := Option.isSome_iff_exists.mp hsome
  simp [he0]

/-- Claim C10: in the array-backed variant, if every stored booking
initially references an existing event, then the same holds after any
sequence of operations, and consequently the event projection attached
to every listed booking is present rather than null. -/
theorem inMem_referential_integrity (s : InMem.State) (ops : List InMem.Op)
    (h : InMem.refIntegrity s) :
    InMem.refIntegrity (InMem.run s ops) ∧
      ∀ p ∈ InMem.listBookings (InMem.run s ops), p.2.isSome := by
  have hpres : InMem.refIntegrity (InMem.run s ops) := by
    induction ops generalizing s with
    | nil => exact h
    | cons op rest ih =>
      have hstep : InMem.refIntegrity (InMem.applyOp s op) := by
        cases op with
        | createEvent now r => exact inMem_refIntegrity_createEvent s now r h
        | updateEvent now id r => exact inMem_refIntegrity_updateEvent s now id r h
        | deleteEvent id => exact inMem_refIntegrity_deleteEvent s id h
        | createBooking now r => exact inMem_refIntegrity_createBooking s now r h
        | updateBooking now id r => exact inMem_refIntegrity_updateBooking s now id r h
        | cancelBooking id => exact inMem_refIntegrity_cancelBooking s id h
      exact ih (InMem.applyOp s op) hstep
  exact ⟨hpres, inMem_listBookings_proj_isSome _ hpres⟩

/-- Concrete instantiation of the referential-integrity theorem on the
seed state: deleting event 1 and then creating a booking on event 2. -/
theorem inMem_referential_integrity_witness :
    InMem.refIntegrity (InMem.run InMem.seedState
      [InMem.Op.deleteEvent 1,
       InMem.Op.createBooking "2024-02-01T00:00:00Z"
         { eventId := 2, participantName := "Ada", email := "ada@x.io",
           phone := "+1", college := "", department := "", year := "" }]) ∧
      ∀ p ∈ InMem.listBookings (InMem.run InMem.seedState
        [InMem.Op.deleteEvent 1,
         InMem.Op.createBooking "2024-02-01T00:00:00Z"
           { eventId := 2, participantName := "Ada", email := "ada@x.io",
             phone := "+1", college := "", department := "", year := "" }]), p.2.isSome :=
  inMem_referential_integrity InMem.seedState _
    (by unfold InMem.refIntegrity; decide)

theorem inMem_noDup_createEvent (s : InMem.State) (now : String) (r : InMem.EventReq)
    (h : InMem.noDupConfirmed s) : InMem.noDupConfirmed (InMem.createEvent s now r).2 := by
  unfold InMem.noDupConfirmed at h ⊢
  unfold InMem.createEvent
  split
  · exact h
  · exact h

theorem inMem_noDup_updateEvent (s : InMem.State) (now : String) (id : Int)
    (r : InMem.EventReq) (h : InMem.noDupConfirmed s) :
    InMem.noDupConfirmed (InMem.updateEvent s now id r).2 := by
  unfold InMem.noDupConfirmed at h ⊢
  unfold InMem.updateEvent
  cases hfind : InMem.findEventById s id with
  | none => simp only [hfind]; exact h
  | some e => simp only [hfind]; exact h

theorem inMem_noDup_deleteEvent (s : InMem.State) (id : Int)
    (h : InMem.noDupConfirmed s) : InMem.noDupConfirmed (InMem.deleteEvent s id).2 := by
  unfold InMem.noDupConfirmed at h ⊢
  unfold InMem.deleteEvent
  cases hfind : InMem.findEventById s id with
  | none => simp only [hfind]; exact h
  | some e =>
    simp only [hfind]
    intro b1 hb1 b2 hb2
    exact h b1 (List.mem_filter.mp hb1).1 b2 (List.mem_filter.mp hb2).1

theorem inMem_noDup_cancelBooking (s : InMem.State) (id : Int)
    (h : InMem.noDupConfirmed s) : InMem.noDupConfirmed (InMem.cancelBooking s id).2 := by
  unfold InMem.noDupConfirmed at h ⊢
  unfold InMem.cancelBooking
  cases hb : InMem.findBookingById s id with
  | none => simp only [hb]; exact h
  | some deleted =>
    simp only [hb]
    intro b1 hb1 b2 hb2
    exact h b1 (mem_of_mem_removeFirstBy _ _ _ _ hb1)
      b2 (mem_of_mem_removeFirstBy _ _ _ _ hb2)

theorem inMem_noDup_createBooking (s : InMem.State) (now : String) (r : InMem.BookingReq)
    (h : InMem.noDupConfirmed s) : InMem.noDupConfirmed (InMem.createBooking s now r).2 := by
  unfold InMem.noDupConfirmed at h ⊢
  unfold InMem.createBooking
  split
  · exact h
  · cases hfind : InMem.findEventById s r.eventId with
    | none => simp only [hfind]; exact h
    | some event =>
      simp only [hfind]
      split
      · exact h
      · split
        · exact h
        · rename_i hcap hdup
          intro b1 hb1 b2 hb2 hne heq hmail
          have hnodup : ∀ b ∈ s.bookings, ¬ (b.eventId = r.eventId ∧ b.email = r.email) := by
            intro b hbmem hcontra
            apply hdup
            rw [List.any_eq_true]
            exact ⟨b, hbmem, by simp [hcontra.1, hcontra.2]⟩
          rcases List.mem_append.mp hb1 with h1old | h1new
          · rcases List.mem_append.mp hb2 with h2old | h2new
            · exact h b1 h1old b2 h2old hne heq hmail
            · have hb2eq := List.mem_singleton.mp h2new
              exfalso
              apply hnodup b1 h1old
              constructor
              · rw [heq, hb2eq]
              · rw [hmail, hb2eq]
          · have hb1eq := List.mem_singleton.mp h1new
            rcases List.mem_append.mp hb2 with h2old | h2new
            · exfalso
              apply hnodup b2 h2old
              constructor
              · rw [← heq, hb1eq]
              · rw [← hmail, hb1eq]
            · exact absurd (hb1eq.trans (List.mem_singleton.mp h2new).symm) hne

/-- Claim C4, amended: starting from a state where no event has two
distinct same-email bookings both confirmed, every sequence of ledger
operations that contains no booking update preserves that property.
The booking-update operation itself can break it, because it overwrites
the email with no duplicate re-check. -/
theorem inMem_no_duplicate_confirmed (s : InMem.State) (ops : List InMem.Op)
    (hops : ∀ op ∈ ops, op.isUpdateBooking = false) (h : InMem.noDupConfirmed s) :
    InMem.noDupConfirmed (InMem.run s ops) := by
  induction ops generalizing s with
  | nil => exact h
  | cons op rest ih =>
    have hop := hops op (List.mem_cons_self _ _)
    have hrest : ∀ o ∈ rest, o.isUpdateBooking = false :=
      fun o ho => hops o (List.mem_cons_of_mem _ ho)
    have hstep : InMem.noDupConfirmed (InMem.applyOp s op) := by
      cases op with
      | createEvent now r => exact inMem_noDup_createEvent s now r h
      | updateEvent now id r => exact inMem_noDup_updateEvent s now id r h
      | deleteEvent id => exact inMem_noDup_deleteEvent s id h
      | createBooking now r => exact inMem_noDup_createBooking s now r h
      | updateBooking now id r => simp [InMem.Op.isUpdateBooking] at hop
      | cancelBooking id => exact inMem_noDup_cancelBooking s id h
    exact ih (InMem.applyOp s op) hrest hstep

/-- Concrete instantiation of the duplicate-confirmed preservation
theorem on the seed state. -/
theorem inMem_no_duplicate_confirmed_witness :
    InMem.noDupConfirmed (InMem.run InMem.seedState
      [InMem.Op.createBooking "2024-02-01T00:00:00Z"
        { eventId := 1, participantName := "Ada", email := "ada@x.io",
          phone := "+1", college := "", department := "", year := "" },
       InMem.Op.cancelBooking 2]) :=
  inMem_no_duplicate_confirmed InMem.seedState _
    (by decide)
    (by unfold InMem.noDupConfirmed; decide)

/-- Event record of the counterexample state for the duplicate-confirmed
claim. -/
def dupConfEvent : InMem.Event :=
  { id := 1, name := "Tech Talk", description := "talk", date := "2024-03-01",
    time := "10:00 AM", venue := "Hall A", maxParticipants := 10,
    currentParticipants := 2, category := "Technical",
    createdAt := none, updatedAt := none }

/-- State with one event and two confirmed bookings under distinct
emails, from which one booking update manufactures a duplicate. -/
def dupConfState : InMem.State :=
  { events := [dupConfEvent],
    bookings :=
      [ { id := 1, eventId := 1, participantName := "Ann", email := "ann@x.io",
          phone := "+1", college := "Not specified", department := "Not specified",
          year := "Not specified", registrationDate := "t0",
          status := "confirmed", updatedAt := none },
        { id := 2, eventId := 1, participantName := "Ben", email := "ben@x.io",
          phone := "+2", college := "Not specified", department := "Not specified",
          year := "Not specified", registrationDate := "t0",
          status := "confirmed", updatedAt := none } ],
    nextEventId := 2, nextBookingId := 3 }

/-- Booking patch that only overwrites the email. -/
def emailOverwritePatch : InMem.BookingPatch :=
  { participantName := "", email := "ann@x.io", phone := "",
    college := "", department := "", year := "" }

/-- Counterexample to claim C4 as stated: from a state satisfying the
uniqueness invariant, the booking-update ledger operation (included by
the claim) produces two distinct confirmed bookings for the same event
with the same email, because PUT overwrites the email with no duplicate
re-check. -/
theorem inMem_duplicate_confirmed_counterexample :
    InMem.noDupConfirmed dupConfState ∧
    ¬ InMem.noDupConfirmed
        (InMem.run dupConfState [InMem.Op.updateBooking "t1" 2 emailOverwritePatch]) := by
  constructor
  · unfold InMem.noDupConfirmed
    decide
  · unfold InMem.noDupConfirmed
    decide

/-- Concrete instantiation of the capacity-invariant theorem on the seed
state and one booking creation followed by one cancellation. -/
theorem inMem_capacity_invariant_witness :
    InMem.capacityInv (InMem.run InMem.seedState
      [InMem.Op.createBooking "2024-02-01T00:00:00Z"
        { eventId := 1, participantName := "Ada", email := "ada@x.io",
          phone := "+1", college := "", department := "", year := "" },
       InMem.Op.cancelBooking 1]) :=
  inMem_capacity_invariant InMem.seedState _
    (by decide)
    (by unfold InMem.capacityInv; decide)

theorem inMem_bookingReqPresent_iff (r : InMem.BookingReq) :
    InMem.bookingReqPresent r ↔
      ¬ (r.eventId = 0 ∨ r.participantName = "" ∨ r.email = "" ∨ r.phone = "") := by
  unfold InMem.bookingReqPresent
  tauto

theorem inMem_eventReqPresent_iff (r : InMem.EventReq) :
    InMem.eventReqPresent r ↔
      ¬ (r.name = "" ∨ r.description = "" ∨ r.date = "" ∨ r.time = "" ∨
          r.venue = "" ∨ r.maxParticipants = 0 ∨ r.category = "") := by
  unfold InMem.eventReqPresent
  tauto

theorem mongo_bookingReqPresent_iff (r : Mongo.BookingReq) :
    Mongo.bookingReqPresent r ↔
      ¬ (r.eventId = "" ∨ r.participantName = "" ∨ r.email = "" ∨ r.phone = "") := by
  unfold Mongo.bookingReqPresent
  tauto

theorem mongo_eventReqPresent_iff (r : Mongo.EventReq) :
    Mongo.eventReqPresent r ↔
      ¬ (r.name = "" ∨ r.description = "" ∨ r.date = "" ∨ r.time = "" ∨
          r.venue = "" ∨ r.maxParticipants = 0 ∨ r.category = "") := by
  unfold Mongo.eventReqPresent
  tauto

theorem mongo_hasBookingPair_iff (s : Mongo.State) (eid em : String) :
    Mongo.hasBookingPair s eid em ↔
      (s.bookings.any (fun b => b.eventId == eid && b.email == em)) = true := by
  unfold Mongo.hasBookingPair
  rw [List.any_eq_true]
  constructor
  · rintro ⟨b, hb, h1, h2⟩
    exact ⟨b, hb, by simp [h1, h2]⟩
  · rintro ⟨b, hb, h⟩
    simp at h
    exact ⟨b, hb, h.1, h.2⟩

/-- Claim C5: a createBooking call that carries its required fields and
references an event whose currentParticipants equals its
maxParticipants fails with the capacity error and returns the state
completely unchanged. -/
theorem inMem_createBooking_full_event (s : InMem.State) (now : String)
    (r : InMem.BookingReq) (ev : InMem.Event) (hpres : InMem.bookingReqPresent r)
    (hfind : InMem.findEventById s r.eventId = some ev)
    (hfull : ev.currentParticipants = ev.maxParticipants) :
    InMem.createBooking s now r = (Except.error Err.capacity, s) := by
  unfold InMem.createBooking
  rw [if_neg ((inMem_bookingReqPresent_iff r).mp hpres)]
  simp only [hfind]
  rw [if_pos (ge_of_eq hfull)]

/-- Event at capacity used to instantiate the full-event theorem. -/
def fullEvent : InMem.Event :=
  { id := 7, name := "Robo Sumo", description := "robot contest",
    date := "2024-03-02", time := "9:00 AM", venue := "Arena",
    maxParticipants := 2, currentParticipants := 2,
    category := "Competition", createdAt := none, updatedAt := none }

/-- State holding only the full event. -/
def fullState : InMem.State :=
  { events := [fullEvent], bookings := [], nextEventId := 8, nextBookingId := 1 }

/-- Request targeting the full event. -/
def fullReq : InMem.BookingReq :=
  { eventId := 7, participantName := "Ada", email := "ada@x.io",
    phone := "+1", college := "", department := "", year := "" }

/-- Concrete instantiation of the full-event theorem. -/
theorem inMem_createBooking_full_event_witness :
    InMem.createBooking fullState "t" fullReq = (Except.error Err.capacity, fullState) :=
  inMem_createBooking_full_event fullState "t" fullReq fullEvent
    (by unfold InMem.bookingReqPresent; decide) (by decide) (by decide)

/-- Claim C2, amended: the booking handler of the Mongoose-backed
variant settles its checks in this order, first failure winning:
missing required fields give the validation error; an unknown event the
not-found error; a non-active event the conflict error; a full event
the capacity error; an existing booking with the same event and
lowercased email pair, whatever the status of that booking, the
duplicate error; and when every check passes a confirmed booking is
created. -/
theorem mongo_createBooking_check_order (s : Mongo.State) (newId now : String)
    (r : Mongo.BookingReq) :
    (¬ Mongo.bookingReqPresent r →
      (Mongo.createBooking s newId now r).1 = Except.error Err.validation) ∧
    (Mongo.bookingReqPresent r → Mongo.findEventById s r.eventId = none →
      (Mongo.createBooking s newId now r).1 = Except.error Err.notFound) ∧
    (∀ ev, Mongo.bookingReqPresent r → Mongo.findEventById s r.eventId = some ev →
      ev.status ≠ "active" →
      (Mongo.createBooking s newId now r).1 = Except.error Err.conflict) ∧
    (∀ ev, Mongo.bookingReqPresent r → Mongo.findEventById s r.eventId = some ev →
      ev.status = "active" → ev.currentParticipants ≥ ev.maxParticipants →
      (Mongo.createBooking s newId now r).1 = Except.error Err.capacity) ∧
    (∀ ev, Mongo.bookingReqPresent r → Mongo.findEventById s r.eventId = some ev →
      ev.status = "active" → ev.currentParticipants < ev.maxParticipants →
      Mongo.hasBookingPair s r.eventId (lowerString r.email) →
      (Mongo.createBooking s newId now r).1 = Except.error Err.duplicate) ∧
    (∀ ev, Mongo.bookingReqPresent r → Mongo.findEventById s r.eventId = some ev →
      ev.status = "active" → ev.currentParticipants < ev.maxParticipants →
      ¬ Mongo.hasBookingPair s r.eventId (lowerString r.email) →
      ∃ b, (Mongo.createBooking s newId now r).1 = Except.ok b ∧
        b.status = "confirmed") := by
  refine ⟨?_, ?_, ?_, ?_, ?_, ?_⟩
  · intro hnp
    have hcond : r.eventId = "" ∨ r.participantName = "" ∨ r.email = "" ∨ r.phone = "" := by
      by_contra hc
      exact hnp ((mongo_bookingReqPresent_iff r).mpr hc)
    unfold Mongo.createBooking
    rw [if_pos hcond]
  · intro hp hfind
    unfold Mongo.createBooking
    rw [if_neg ((mongo_bookingReqPresent_iff r).mp hp)]
    simp only [hfind]
  · intro ev hp hfind hst
    unfold Mongo.createBooking
    rw [if_neg ((mongo_bookingReqPresent_iff r).mp hp)]
    simp only [hfind]
    rw [if_pos hst]
  · intro ev hp hfind hst hcap
    unfold Mongo.createBooking
    rw [if_neg ((mongo_bookingReqPresent_iff r).mp hp)]
    simp only [hfind]
    rw [if_neg (not_not_intro hst), if_pos hcap]
  · intro ev hp hfind hst hlt hdup
    unfold Mongo.createBooking
    rw [if_neg ((mongo_bookingReqPresent_iff r).mp hp)]
    simp only [hfind]
    rw [if_neg (not_not_intro hst), if_neg (not_le.mpr hlt),
      if_pos ((mongo_hasBookingPair_iff s r.eventId (lowerString r.email)).mp hdup)]
  · intro ev hp hfind hst hlt hdup
    unfold Mongo.createBooking
    rw [if_neg ((mongo_bookingReqPresent_iff r).mp hp)]
    simp only [hfind]
    rw [if_neg (not_not_intro hst), if_neg (not_le.mpr hlt),
      if_neg (fun hc => hdup ((mongo_hasBookingPair_iff s r.eventId (lowerString r.email)).mpr hc))]
    exact ⟨_, rfl, rfl⟩

/-- Full and active event of the Mongoose-backed variant, used to
instantiate the check-order theorem at its capacity branch. -/
def mFullEvent : Mongo.Event :=
  { id := "e1", name := "Robo Sumo", description := "robot contest",
    date := "2024-03-02", time := "9:00 AM", venue := "Arena",
    maxParticipants := 1, currentParticipants := 1,
    category := "Competition", status := "active" }

/-- State holding only the full active event. -/
def mFullState : Mongo.State := { events := [mFullEvent], bookings := [] }

/-- Request targeting the full active event. -/
def mFullReq : Mongo.BookingReq :=
  { eventId := "e1", participantName := "Ada", email := "ada@x.io",
    phone := "+1", college := "", department := "", year := "" }

/-- Concrete instantiation of the check-order theorem. -/
theorem mongo_createBooking_check_order_witness :
    (Mongo.createBooking mFullState "b1" "t" mFullReq).1 = Except.error Err.capacity :=
  (mongo_createBooking_check_order mFullState "b1" "t" mFullReq).2.2.2.1 mFullEvent
    (by unfold Mongo.bookingReqPresent; decide) (by decide) (by decide) (by decide)

/-- Active event with spare capacity for the duplicate counterexample. -/
def dupXEvent : Mongo.Event :=
  { id := "e1", name := "Tech Talk", description := "talk",
    date := "2024-03-01", time := "10:00 AM", venue := "Hall A",
    maxParticipants := 10, currentParticipants := 1,
    category := "Technical", status := "active" }

/-- State holding the active event and one cancelled booking for it. -/
def dupXState : Mongo.State :=
  { events := [dupXEvent],
    bookings :=
      [ { id := "b1", eventId := "e1", participantName := "Ann",
          email := "ann@x.io", phone := "+1", college := "Not specified",
          department := "Not specified", year := "Not specified",
          status := "cancelled", createdAt := "t0" } ] }

/-- Request re-registering the same email on the same event. -/
def dupXReq : Mongo.BookingReq :=
  { eventId := "e1", participantName := "Ann", email := "ann@x.io",
    phone := "+1", college := "", department := "", year := "" }

/-- Counterexample to claim C2 as stated: every booking stored for the
event is cancelled, yet the handler rejects the registration with the
duplicate error, because the uniqueness index behind the duplicate
check covers cancelled bookings too; the claim restricts the check to
non-cancelled bookings and so predicts success here. -/
theorem mongo_duplicate_on_cancelled_counterexample :
    Mongo.bookingReqPresent dupXReq ∧
    Mongo.findEventById dupXState dupXReq.eventId = some dupXEvent ∧
    dupXEvent.status = "active" ∧
    dupXEvent.currentParticipants < dupXEvent.maxParticipants ∧
    (∀ b ∈ dupXState.bookings, b.status = "cancelled") ∧
    (Mongo.createBooking dupXState "b2" "t1" dupXReq).1 = Except.error Err.duplicate := by
  refine ⟨?_, ?_, ?_, ?_, ?_, ?_⟩
  · unfold Mongo.bookingReqPresent
    decide
  · decide
  · decide
  · decide
  · decide
  · decide

/-- Claim C6, amended (Mongoose-backed variant): cancelling an unknown id
is the not-found error with the state unchanged; cancelling an existing
event returns it with status cancelled, leaves every booking record
untouched, keeps the event stored (same event ids, and the event is
still found under its id), and makes every later well-formed
createBooking against that event fail with the conflict error.  The
array-backed variant instead hard-deletes the event together with its
bookings. -/
theorem mongo_cancelEvent_spec (s : Mongo.State) (id : String) :
    (Mongo.findEventById s id = none →
      Mongo.cancelEvent s id = (Except.error Err.notFound, s)) ∧
    (∀ ev, Mongo.findEventById s id = some ev →
      (Mongo.cancelEvent s id).1 = Except.ok { ev with status := "cancelled" } ∧
      (Mongo.cancelEvent s id).2.bookings = s.bookings ∧
      (Mongo.cancelEvent s id).2.events.map Mongo.Event.id = s.events.map Mongo.Event.id ∧
      Mongo.findEventById (Mongo.cancelEvent s id).2 id =
        some { ev with status := "cancelled" } ∧
      (∀ newId now r, Mongo.bookingReqPresent r → r.eventId = id →
        (Mongo.createBooking (Mongo.cancelEvent s id).2 newId now r).1 =
          Except.error Err.conflict)) := by
  constructor
  · intro h
    unfold Mongo.cancelEvent
    rw [h]
  · intro ev hfind
    have hstate : (Mongo.cancelEvent s id).2 =
        { s with events := updateFirstBy Mongo.Event.id s.events id
                   (fun e => { e with status := "cancelled" }) } := by
      unfold Mongo.cancelEvent
      rw [hfind]
    have hfind2 : Mongo.findEventById (Mongo.cancelEvent s id).2 id =
        some { ev with status := "cancelled" } := by
      rw [hstate]
      unfold Mongo.findEventById at hfind ⊢
      exact find?_updateFirstBy_key Mongo.Event.id s.events id
        (fun e => { e with status := "cancelled" }) (fun a => rfl) ev hfind
    refine ⟨?_, ?_, ?_, hfind2, ?_⟩
    · unfold Mongo.cancelEvent
      rw [hfind]
    · rw [hstate]
    · rw [hstate]
      exact map_key_updateFirstBy Mongo.Event.id s.events id
        (fun e => { e with status := "cancelled" }) (fun a => rfl)
    · intro newId now r hpres hid
      unfold Mongo.createBooking
      rw [if_neg ((mongo_bookingReqPresent_iff r).mp hpres)]
      have hfind3 : Mongo.findEventById (Mongo.cancelEvent s id).2 r.eventId =
          some { ev with status := "cancelled" } := by
        rw [hid]
        exact hfind2
      simp only [hfind3]
      rw [if_pos (show ("cancelled" : String) ≠ "active" by decide)]

/-- Active event used to instantiate the cancel-event theorem. -/
def mActiveEvent : Mongo.Event :=
  { id := "e2", name := "AI Talk", description := "machine learning talk",
    date := "2024-03-05", time := "2:00 PM", venue := "Lab 3",
    maxParticipants := 30, currentParticipants := 5,
    category := "Workshop", status := "active" }

/-- State holding only the active event. -/
def mActiveState : Mongo.State := { events := [mActiveEvent], bookings := [] }

/-- Request targeting the active event. -/
def mActiveReq : Mongo.BookingReq :=
  { eventId := "e2", participantName := "Ada", email := "ada@x.io",
    phone := "+1", college := "", department := "", year := "" }

/-- Concrete instantiation of the cancel-event theorem: after the
cancellation, booking the event is the conflict error. -/
theorem mongo_cancelEvent_spec_witness :
    (Mongo.createBooking (Mongo.cancelEvent mActiveState "e2").2 "b1" "t" mActiveReq).1 =
      Except.error Err.conflict :=
  ((mongo_cancelEvent_spec mActiveState "e2").2 mActiveEvent (by decide)).2.2.2.2
    "b1" "t" mActiveReq (by unfold Mongo.bookingReqPresent; decide) rfl

/-- Booking request targeting seed event 1 with a fresh email. -/
def afterDeleteReq : InMem.BookingReq :=
  { eventId := 1, participantName := "Ada", email := "ada2@x.io",
    phone := "+1", college := "", department := "", year := "" }

/-- Counterexample to claim C6 as stated: in the array-backed variant,
cancelling event 1 of the seed state removes the event outright (no
stored event keeps id 1), removes its booking records, and a subsequent
createBooking against it fails with the not-found error rather than the
conflict error. -/
theorem inMem_cancelEvent_counterexample :
    (InMem.findEventById InMem.seedState 1).isSome ∧
    (∀ e ∈ (InMem.deleteEvent InMem.seedState 1).2.events, e.id ≠ 1) ∧
    (∃ b ∈ InMem.seedState.bookings, b.eventId = 1) ∧
    (∀ b ∈ (InMem.deleteEvent InMem.seedState 1).2.bookings, b.eventId ≠ 1) ∧
    (InMem.createBooking (InMem.deleteEvent InMem.seedState 1).2 "t" afterDeleteReq).1 =
      Except.error Err.notFound := by
  refine ⟨?_, ?_, ?_, ?_, ?_⟩ <;> decide

/-- Claim C7, amended (array-backed variant): cancelling an unknown
booking id is the not-found error with the state unchanged; cancelling
an existing booking removes the booking record (rather than keeping it
with status cancelled) and decrements the owning event by exactly one
when its counter is positive, leaves the counter at 0 when it is
already 0, and touches no event when the owner is missing.  The
Mongoose Booking model method cancel instead keeps the record with
status cancelled and decrements nothing. -/
theorem inMem_cancelBooking_spec (s : InMem.State) (id : Int) :
    (InMem.findBookingById s id = none →
      InMem.cancelBooking s id = (Except.error Err.notFound, s)) ∧
    (∀ b, InMem.findBookingById s id = some b →
      (InMem.cancelBooking s id).1 = Except.ok b ∧
      (InMem.cancelBooking s id).2.bookings = removeFirstBy InMem.Booking.id s.bookings id ∧
      (∀ ev, InMem.findEventById s b.eventId = some ev → 0 < ev.currentParticipants →
        InMem.findEventById (InMem.cancelBooking s id).2 b.eventId =
          some { ev with currentParticipants := ev.currentParticipants - 1 }) ∧
      (∀ ev, InMem.findEventById s b.eventId = some ev → ev.currentParticipants = 0 →
        (InMem.cancelBooking s id).2.events = s.events) ∧
      (InMem.findEventById s b.eventId = none →
        (InMem.cancelBooking s id).2.events = s.events)) := by
  constructor
  · intro h
    unfold InMem.cancelBooking
    rw [h]
  · intro b hb
    refine ⟨?_, ?_, ?_, ?_, ?_⟩
    · unfold InMem.cancelBooking
      rw [hb]
    · unfold InMem.cancelBooking
      simp only [hb]
    · intro ev hev hpos
      unfold InMem.cancelBooking
      simp only [hb, hev]
      rw [if_pos hpos]
      unfold InMem.findEventById at hev ⊢
      exact find?_updateFirstBy_key InMem.Event.id s.events b.eventId
        (fun e => { e with currentParticipants := e.currentParticipants - 1 })
        (fun a => rfl) ev hev
    · intro ev hev hzero
      unfold InMem.cancelBooking
      simp only [hb, hev]
      rw [if_neg (by omega)]
    · intro hev
      unfold InMem.cancelBooking
      simp only [hb, hev]

/-- Concrete instantiation of the cancel-booking theorem on the seed
state: cancelling booking 1 leaves event 1 with its counter decremented
from 25 to 24. -/
theorem inMem_cancelBooking_spec_witness :
    InMem.findEventById (InMem.cancelBooking InMem.seedState 1).2 1 =
      some { InMem.seedEventOne with
        currentParticipants := InMem.seedEventOne.currentParticipants - 1 } :=
  ((inMem_cancelBooking_spec InMem.seedState 1).2 InMem.seedBookingOne (by decide)).2.2.1
    InMem.seedEventOne (by decide) (by decide)

/-- Counterexample to claim C7 as stated: cancelling seed booking 1
leaves no stored booking with id 1 at all, so no booking with that id
was set to status cancelled; the record was spliced out instead. -/
theorem inMem_cancelBooking_counterexample :
    (InMem.findBookingById InMem.seedState 1).isSome ∧
    (∀ b ∈ (InMem.cancelBooking InMem.seedState 1).2.bookings, b.id ≠ 1) := by
  refine ⟨?_, ?_⟩ <;> decide

/-- Claim C8: event creation with all required fields present, a
positive participant cap and a category from the fixed enumeration
yields an event with currentParticipants 0 and, in the variant that has
a status field, status active. -/
theorem createEvent_fresh_defaults (sM : Mongo.State) (newId : String)
    (rM : Mongo.EventReq) (sI : InMem.State) (now : String) (rI : InMem.EventReq) :
    (Mongo.eventReqPresent rM → 1 ≤ rM.maxParticipants →
      rM.category ∈ Mongo.categories →
      ∃ e, (Mongo.createEvent sM newId rM).1 = Except.ok e ∧
        e.currentParticipants = 0 ∧ e.status = "active") ∧
    (InMem.eventReqPresent rI →
      ∃ e, (InMem.createEvent sI now rI).1 = Except.ok e ∧
        e.currentParticipants = 0) := by
  constructor
  · intro hp hmax hcat
    unfold Mongo.createEvent
    rw [if_neg ((mongo_eventReqPresent_iff rM).mp hp)]
    have hno : ¬ (rM.maxParticipants < 1 ∨ rM.category ∉ Mongo.categories) := by
      rintro (hlt | hnc)
      · omega
      · exact hnc hcat
    rw [if_neg hno]
    exact ⟨_, rfl, rfl, rfl⟩
  · intro hp
    unfold InMem.createEvent
    rw [if_neg ((inMem_eventReqPresent_iff rI).mp hp)]
    exact ⟨_, rfl, rfl⟩

/-- Event-creation request with cap 50 and category Technical. -/
def freshEventReqM : Mongo.EventReq :=
  { name := "Hack Night", description := "overnight hack",
    date := "2024-03-10", time := "6:00 PM", venue := "Lab 1",
    maxParticipants := 50, category := "Technical" }

/-- The same event-creation request for the array-backed variant. -/
def freshEventReqI : InMem.EventReq :=
  { name := "Hack Night", description := "overnight hack",
    date := "2024-03-10", time := "6:00 PM", venue := "Lab 1",
    maxParticipants := 50, category := "Technical" }

/-- Concrete instantiation of the event-creation theorem. -/
theorem createEvent_fresh_defaults_witness :
    (∃ e, (Mongo.createEvent mActiveState "e9" freshEventReqM).1 = Except.ok e ∧
      e.currentParticipants = 0 ∧ e.status = "active") ∧
    (∃ e, (InMem.createEvent InMem.seedState "t" freshEventReqI).1 = Except.ok e ∧
      e.currentParticipants = 0) :=
  ⟨(createEvent_fresh_defaults mActiveState "e9" freshEventReqM
      InMem.seedState "t" freshEventReqI).1
      (by unfold Mongo.eventReqPresent; decide) (by decide) (by decide),
   (createEvent_fresh_defaults mActiveState "e9" freshEventReqM
      InMem.seedState "t" freshEventReqI).2
      (by unfold InMem.eventReqPresent; decide)⟩

/-- Claim C9: the event listing of the Mongoose-backed variant returns
exactly the stored events whose status is active. -/
theorem mongo_listActiveEvents_spec (s : Mongo.State) (e : Mongo.Event) :
    e ∈ Mongo.listActiveEvents s ↔ e ∈ s.events ∧ e.status = "active" := by
  unfold Mongo.listActiveEvents
  rw [List.mem_filter]
  simp [beq_iff_eq]

/-- Concrete instantiation of the listing theorem. -/
theorem mongo_listActiveEvents_spec_witness :
    mActiveEvent ∈ Mongo.listActiveEvents mActiveState :=
  (mongo_listActiveEvents_spec mActiveState mActiveEvent).mpr (by decide)

namespace Mongo

/-- First atomic segment of the booking handler of the Mongoose-backed
variant under the event-loop interleaving model: the handler suspends at
each await, so the field validation, the awaited event read and the
status and capacity checks that run synchronously on the document the
read returned form one indivisible step.  On success it yields the event
document the handler now holds. -/
def bookingPhaseCheck (s : State) (r : BookingReq) : Option Event :=
  if r.eventId = "" ∨ r.participantName = "" ∨ r.email = "" ∨ r.phone = "" then none
  else
    match findEventById s r.eventId with
    | none => none
    | some event =>
      if event.status ≠ "active" then none
      else if event.currentParticipants ≥ event.maxParticipants then none
      else some event

/-- Second atomic segment: the awaited booking save, which inserts the
document unless the unique index on the event and lowercased email pair
rejects it. -/
def bookingPhaseSave (s : State) (newId : String) (now : String) (r : BookingReq) :
    Option State :=
  if s.bookings.any (fun b => b.eventId == r.eventId && b.email == (lowerString r.email)) then
    none
  else
    some { s with bookings := s.bookings ++
      [{ id := newId, eventId := r.eventId, participantName := r.participantName,
         email := (lowerString r.email), phone := r.phone,
         college := if r.college = "" then "Not specified" else r.college,
         department := if r.department = "" then "Not specified" else r.department,
         year := if r.year = "" then "Not specified" else r.year,
         status := "confirmed", createdAt := now }] }

/-- Third atomic segment: the awaited event save, which writes the whole
event document the handler holds back with its counter incremented,
whatever the stored document holds by then. -/
def bookingPhaseWriteBack (s : State) (snapshot : Event) : State :=
  { s with events := updateFirstBy Event.id s.events snapshot.id
             (fun _ => { snapshot with
                currentParticipants := snapshot.currentParticipants + 1 }) }

end Mongo

/-- Active event with exactly one remaining slot. -/
def raceEvent : Mongo.Event :=
  { id := "e1", name := "Robo Sumo", description := "robot contest",
    date := "2024-03-02", time := "9:00 AM", venue := "Arena",
    maxParticipants := 1, currentParticipants := 0,
    category := "Competition", status := "active" }

/-- State holding only the one-slot event and no bookings. -/
def raceState : Mongo.State := { events := [raceEvent], bookings := [] }

/-- First concurrent booking request. -/
def raceReqP : Mongo.BookingReq :=
  { eventId := "e1", participantName := "Ann", email := "ann@x.io",
    phone := "+1", college := "", department := "", year := "" }

/-- Second concurrent booking request, with a distinct email. -/
def raceReqQ : Mongo.BookingReq :=
  { eventId := "e1", participantName := "Ben", email := "ben@x.io",
    phone := "+2", college := "", department := "", year := "" }

/-- Interleaved execution of the two concurrent requests under the
schedule in which both awaited event reads resolve against the initial
state before either save runs, after which each request completes its
booking save and its event write-back.  The result is some final state
exactly when every phase of both requests succeeded. -/
def raceRun : Option Mongo.State :=
  match Mongo.bookingPhaseCheck raceState raceReqP,
      Mongo.bookingPhaseCheck raceState raceReqQ with
  | some evP, some evQ =>
    match Mongo.bookingPhaseSave raceState "bP" "t1" raceReqP with
    | some s1 =>
      match Mongo.bookingPhaseSave (Mongo.bookingPhaseWriteBack s1 evP) "bQ" "t2" raceReqQ with
      | some s3 => some (Mongo.bookingPhaseWriteBack s3 evQ)
      | none => none
    | none => none
  | _, _ => none

/-- Claim C3 evaluated on the code: the event starts one below capacity,
yet under the interleaved schedule both concurrent booking requests
succeed, leaving two confirmed bookings on a one-slot event whose
stored counter reads 1; the purely sequential execution of the same two
requests, in contrast, rejects the second with the capacity error. -/
theorem mongo_capacity_race_both_succeed :
    raceEvent.currentParticipants = raceEvent.maxParticipants - 1 ∧
    (raceRun.map (fun sFin =>
      ((sFin.bookings.filter (fun b => b.eventId == "e1" && b.status == "confirmed")).length,
        Mongo.findEventById sFin "e1"))) =
      some (2, some { raceEvent with currentParticipants := 1 }) ∧
    (Mongo.createBooking
      (Mongo.createBooking raceState "bP" "t1" raceReqP).2 "bQ" "t2" raceReqQ).1 =
      Except.error Err.capacity := by
  refine ⟨?_, ?_, ?_⟩ <;> decide
